import Mathlib

/-!
Shallow embedding of the aioaws client (src/aioaws/aws.py, sqs.py, sns.py)
together with proofs about its specification.
-/

set_option maxHeartbeats 1000000
set_option maxRecDepth 10000

/-! ## Byte-level string encoding (Python `str.encode('utf-8')`) -/

/-- Standard UTF-8 encoding of a single Unicode code point, as a list of bytes
(each a `Nat` below 256).  Models Python's `str.encode('utf-8')` per code point. -/
def utf8EncodeChar (c : Char) : List Nat :=
  let n := c.toNat
  if n < 128 then [n]
  else if n < 2048 then [192 + n / 64, 128 + n % 64]
  else if n < 65536 then [224 + n / 4096, 128 + n / 64 % 64, 128 + n % 64]
  else [240 + n / 262144, 128 + n / 4096 % 64, 128 + n / 64 % 64, 128 + n % 64]

/-- UTF-8 encoding of a whole string as a byte list (Python `v.encode('utf-8')`). -/
def utf8Encode (s : String) : List Nat :=
  s.data.flatMap utf8EncodeChar

/-! ## `url_encode` (aws.py lines 10-17)

`url_encode(v)` is `urllib.parse.quote_from_bytes(v.encode('utf-8'), safe='')`.
CPython's quoter never escapes its always-safe set (ASCII letters, digits and
`_.-~`) even when `safe=''`; every other byte becomes `%XX` with uppercase hex. -/

/-- CPython `urllib.parse`'s always-safe byte set: `A-Z`, `a-z`, `0-9`, `_`, `.`, `-`, `~`.
These bytes are never percent-escaped by `quote_from_bytes`, regardless of `safe`. -/
def isAlwaysSafe (b : Nat) : Bool :=
  (65 ≤ b && b ≤ 90) || (97 ≤ b && b ≤ 122) || (48 ≤ b && b ≤ 57) ||
    b == 95 || b == 46 || b == 45 || b == 126

/-- Uppercase hexadecimal digit for a value below 16 (as used by CPython's quoter). -/
def hexUpperDigit (n : Nat) : Char :=
  if n < 10 then Char.ofNat (48 + n) else Char.ofNat (55 + n)

/-- Quote a single byte the way `urllib.parse.quote_from_bytes(..., safe='')` does:
always-safe bytes pass through, anything else becomes `%XX` (uppercase hex). -/
def quoteByte (b : Nat) : String :=
  if isAlwaysSafe b then String.singleton (Char.ofNat b)
  else String.mk ['%', hexUpperDigit (b / 16), hexUpperDigit (b % 16)]

/-- Embedding of `url_encode` (aws.py): UTF-8 encode, then byte-wise quoting. -/
def url_encode (v : String) : String :=
  String.join ((utf8Encode v).map quoteByte)

/-! Spec-side definitions used to state claim C2 (independent of the embedding above). -/

/-- Byte is an ASCII letter or digit (`A-Za-z0-9`), the set named by claim C2. -/
def isAsciiAlnumByte (b : Nat) : Bool :=
  (65 ≤ b && b ≤ 90) || (97 ≤ b && b ≤ 122) || (48 ≤ b && b ≤ 57)

/-- Byte is in the RFC 3986 unreserved set `A-Za-z0-9-._~` (the amended safe set). -/
def isUnreservedByte (b : Nat) : Bool :=
  isAsciiAlnumByte b || b == 45 || b == 46 || b == 95 || b == 126

/-- Value of a hexadecimal digit character, if it is one (either case accepted). -/
def hexDigitValue (c : Char) : Option Nat :=
  let n := c.toNat
  if 48 ≤ n ∧ n ≤ 57 then some (n - 48)
  else if 65 ≤ n ∧ n ≤ 70 then some (n - 55)
  else if 97 ≤ n ∧ n ≤ 102 then some (n - 87)
  else none

/-- Decode a three-character percent sequence `%XY` back to its byte value.
Used to state, spec-side, that a string "is a percent escape of byte `b`". -/
def percentDecode3 (s : String) : Option Nat :=
  match s.data with
  | ['%', h, l] =>
    match hexDigitValue h, hexDigitValue l with
    | some hv, some lv => some (hv * 16 + lv)
    | _, _ => none
  | _ => none

/-! ## SHA-256 and HMAC-SHA256 (models of `hashlib.sha256` and `hmac.new(..., hashlib.sha256)`)

The hash library is an external dependency of aws.py; it is embedded here
following FIPS 180-4 / RFC 2104 so that the signing-key chain of
`AWS.__get_signature_key` (aws.py lines 68-80) can be stated over real digests.
All machine words are `Nat` reduced mod `2^32` explicitly. -/

/-- Modulus for 32-bit words. -/
def U32 : Nat := 4294967296

/-- Right rotation of a 32-bit word by `n` bits. -/
def rotr32 (n x : Nat) : Nat :=
  (x / 2 ^ n + x % 2 ^ n * 2 ^ (32 - n)) % U32

/-- SHA-256 `Ch` function. -/
def shaCh (x y z : Nat) : Nat := (x &&& y) ^^^ ((x ^^^ 4294967295) &&& z)

/-- SHA-256 `Maj` function. -/
def shaMaj (x y z : Nat) : Nat := (x &&& y) ^^^ (x &&& z) ^^^ (y &&& z)

/-- SHA-256 big sigma 0. -/
def bigSigma0 (x : Nat) : Nat := rotr32 2 x ^^^ rotr32 13 x ^^^ rotr32 22 x

/-- SHA-256 big sigma 1. -/
def bigSigma1 (x : Nat) : Nat := rotr32 6 x ^^^ rotr32 11 x ^^^ rotr32 25 x

/-- SHA-256 small sigma 0. -/
def smallSigma0 (x : Nat) : Nat := rotr32 7 x ^^^ rotr32 18 x ^^^ (x / 8)

/-- SHA-256 small sigma 1. -/
def smallSigma1 (x : Nat) : Nat := rotr32 17 x ^^^ rotr32 19 x ^^^ (x / 1024)

/-- SHA-256 round constants. -/
def K256 : List Nat :=
  [1116352408, 1899447441, 3049323471, 3921009573,
   961987163, 1508970993, 2453635748, 2870763221,
   3624381080, 310598401, 607225278, 1426881987,
   1925078388, 2162078206, 2614888103, 3248222580,
   3835390401, 4022224774, 264347078, 604807628,
   770255983, 1249150122, 1555081692, 1996064986,
   2554220882, 2821834349, 2952996808, 3210313671,
   3336571891, 3584528711, 113926993, 338241895,
   666307205, 773529912, 1294757372, 1396182291,
   1695183700, 1986661051, 2177026350, 2456956037,
   2730485921, 2820302411, 3259730800, 3345764771,
   3516065817, 3600352804, 4094571909, 275423344,
   430227734, 506948616, 659060556, 883997877,
   958139571, 1322822218, 1537002063, 1747873779,
   1955562222, 2024104815, 2227730452, 2361852424,
   2428436474, 2756734187, 3204031479, 3329325298]

/-- Eight-word SHA-256 state. -/
structure Hash8 where
  h0 : Nat
  h1 : Nat
  h2 : Nat
  h3 : Nat
  h4 : Nat
  h5 : Nat
  h6 : Nat
  h7 : Nat
deriving DecidableEq, Repr

/-- SHA-256 initial state. -/
def sha256Init : Hash8 :=
  ⟨1779033703, 3144134277, 1013904242, 2773480762,
   1359893119, 2600822924, 528734635, 1541459225⟩

/-- Big-endian 32-bit word from four bytes of a block. -/
def beWord (block : List Nat) (j : Nat) : Nat :=
  block.getD (4 * j) 0 * 16777216 + block.getD (4 * j + 1) 0 * 65536 +
    block.getD (4 * j + 2) 0 * 256 + block.getD (4 * j + 3) 0

/-- SHA-256 message schedule: 64 expanded words for one 64-byte block. -/
def sha256Schedule (block : List Nat) : List Nat :=
  (List.range 64).foldl
    (fun w t =>
      if t < 16 then w ++ [beWord block t]
      else
        w ++ [(smallSigma1 (w.getD (t - 2) 0) + w.getD (t - 7) 0 +
               smallSigma0 (w.getD (t - 15) 0) + w.getD (t - 16) 0) % U32])
    []

/-- One SHA-256 compression round. -/
def sha256Round (w k : Nat) (s : Hash8) : Hash8 :=
  let t1 := (s.h7 + bigSigma1 s.h4 + shaCh s.h4 s.h5 s.h6 + k + w) % U32
  let t2 := (bigSigma0 s.h0 + shaMaj s.h0 s.h1 s.h2) % U32
  ⟨(t1 + t2) % U32, s.h0, s.h1, s.h2, (s.h3 + t1) % U32, s.h4, s.h5, s.h6⟩

/-- SHA-256 compression of one 64-byte block into the running state. -/
def sha256Compress (state : Hash8) (block : List Nat) : Hash8 :=
  let w := sha256Schedule block
  let s := (List.range 64).foldl (fun s t => sha256Round (w.getD t 0) (K256.getD t 0) s) state
  ⟨(state.h0 + s.h0) % U32, (state.h1 + s.h1) % U32, (state.h2 + s.h2) % U32,
   (state.h3 + s.h3) % U32, (state.h4 + s.h4) % U32, (state.h5 + s.h5) % U32,
   (state.h6 + s.h6) % U32, (state.h7 + s.h7) % U32⟩

/-- Big-endian 8-byte encoding of a 64-bit value. -/
def be64 (n : Nat) : List Nat :=
  [n / 72057594037927936 % 256, n / 281474976710656 % 256, n / 1099511627776 % 256,
   n / 4294967296 % 256, n / 16777216 % 256, n / 65536 % 256, n / 256 % 256, n % 256]

/-- Big-endian 4-byte encoding of a 32-bit word. -/
def be32 (n : Nat) : List Nat :=
  [n / 16777216 % 256, n / 65536 % 256, n / 256 % 256, n % 256]

/-- SHA-256 padding: append `0x80`, zeros to 56 mod 64, then the bit length (big endian). -/
def sha256Pad (msg : List Nat) : List Nat :=
  msg ++ [128] ++ List.replicate ((119 - msg.length % 64) % 64) 0 ++
    be64 (msg.length * 8 % 18446744073709551616)

/-- Split a byte list into successive 64-byte blocks. -/
def toBlocks (l : List Nat) : List (List Nat) :=
  if h : l = [] then [] else l.take 64 :: toBlocks (l.drop 64)
termination_by l.length
decreasing_by
  simp [List.length_drop]
  cases l with
  | nil => exact absurd rfl h
  | cons a t => simp

/-- Full SHA-256 digest (32 bytes) of a byte list. -/
def sha256 (msg : List Nat) : List Nat :=
  let final := (toBlocks (sha256Pad msg)).foldl sha256Compress sha256Init
  be32 final.h0 ++ be32 final.h1 ++ be32 final.h2 ++ be32 final.h3 ++
    be32 final.h4 ++ be32 final.h5 ++ be32 final.h6 ++ be32 final.h7

/-- HMAC-SHA256 per RFC 2104 over byte lists (models `hmac.new(key, data, hashlib.sha256).digest()`). -/
def hmacSha256 (key msg : List Nat) : List Nat :=
  let key := if key.length > 64 then sha256 key else key
  let k0 := key ++ List.replicate (64 - key.length) 0
  let ipadded := k0.map (fun b => b ^^^ 54)
  let opadded := k0.map (fun b => b ^^^ 92)
  sha256 (opadded ++ sha256 (ipadded ++ msg))

/-- Embedding of `sign(key, msg)` (aws.py lines 20-29): HMAC-SHA256 of the
UTF-8-encoded message under the given key. -/
def sign (key : List Nat) (msg : String) : List Nat :=
  hmacSha256 key (utf8Encode msg)

/-- Embedding of `AWS.__get_signature_key(key, date)` (aws.py lines 68-80);
`region` and `service` are the client's construction-time fields. -/
def getSignatureKey (region service key date : String) : List Nat :=
  let iv := utf8Encode ("AWS4" ++ key)
  let kdate := sign iv date
  let kregion := sign kdate region
  let kservice := sign kregion service
  sign kservice "aws4_request"

/-- Modelled from the spec: `deriveSigningKey(secretKey, date, region, service)` computes
`HMAC(HMAC(HMAC(HMAC("AWS4"+secretKey, date), region), service), "aws4_request")`,
each stage keyed by the previous stage's output (spec section 4.1). -/
def deriveSigningKeySpec (secretKey date region service : String) : List Nat :=
  hmacSha256
    (hmacSha256
      (hmacSha256
        (hmacSha256 (utf8Encode ("AWS4" ++ secretKey)) (utf8Encode date))
        (utf8Encode region))
      (utf8Encode service))
    (utf8Encode "aws4_request")

/-! ## Python dict model and the canonical query string (aws.py `AWS.get`, lines 82-133) -/

/-- Python dict assignment `d[k] = v` on a dict modelled as an insertion-ordered
association list: if the key is present its value is replaced in place,
otherwise the pair is appended. -/
def dictInsert (d : List (String × String)) (k v : String) : List (String × String) :=
  if d.any (fun p => p.1 == k) then d.map (fun p => if p.1 == k then (k, v) else p)
  else d ++ [(k, v)]

/-- Fixed SigV4 algorithm name used by `AWS.get`. -/
def AWS_ALGORITHM : String := "AWS4-HMAC-SHA256"

/-- Embedding of aws.py lines 106-109: the four reserved SigV4 keys are assigned
into the caller's `params` dict (in source order), overwriting existing entries. -/
def amzParamsUpdate (params : List (String × String))
    (credential amz_date : String) : List (String × String) :=
  dictInsert
    (dictInsert
      (dictInsert
        (dictInsert params "X-Amz-Algorithm" AWS_ALGORITHM)
        "X-Amz-Credential" credential)
      "X-Amz-Date" amz_date)
    "X-Amz-SignedHeaders" "host"

/-- Embedding of aws.py line 111: each value is stringified and percent-encoded
(keys are left as-is). -/
def encodeParams (params : List (String × String)) : List (String × String) :=
  params.map (fun p => (p.1, url_encode p.2))

/-- Embedding of aws.py line 112: `sorted(params, key=lambda p: p[0])`, a stable
sort by key under code-point (hence, through UTF-8, byte-lexicographic) order. -/
def sortParams (ps : List (String × String)) : List (String × String) :=
  ps.mergeSort (fun p q => decide (p.1 ≤ q.1))

/-- Embedding of aws.py lines 111-115: the canonical query string
`'&'.join('k=v' for sorted encoded params)`. -/
def canonicalQueryOf (params : List (String × String)) : String :=
  String.intercalate "&" ((sortParams (encodeParams params)).map (fun p => p.1 ++ "=" ++ p.2))

/-- State visible after the parameter phase of `AWS.get`: the caller's dict object
(mutated in place by lines 106-109; the later rebinding of the local name
`params` to a list on line 111 does not affect the caller's object) together
with the canonical query string built from that mutated dict. -/
structure AWSGetParamsPhase where
  callerParams : List (String × String)
  canonicalQuery : String
deriving DecidableEq, Repr

/-- Embedding of the parameter phase of `AWS.get` (aws.py lines 106-115) as an
explicit state transformer on the caller-supplied `params` dict. -/
def awsGetParamsPhase (params : List (String × String))
    (credential amz_date : String) : AWSGetParamsPhase :=
  let p := amzParamsUpdate params credential amz_date
  ⟨p, canonicalQueryOf p⟩

/-! ## HTTP dispatch of `AWS.get` (aws.py lines 135-140) -/

/-- Embedding of the `AWSException` class (aws.py lines 32-45). -/
structure AWSException where
  status : Int
  reason : String
deriving DecidableEq, Repr

/-- HTTP response as delivered by the transport collaborator (aiohttp). -/
structure HttpResponse (α : Type) where
  status : Int
  reason : String
  body : α
deriving DecidableEq, Repr

/-- Embedding of aws.py lines 135-140: raise `AWSException(status, reason)` when
`response.status != 200`, otherwise parse the body (`objectify.fromstring`,
abstracted as the function `parseBody`) and return the document. -/
def awsGetDispatch {α β : Type} (parseBody : α → β) (response : HttpResponse α) :
    Except AWSException β :=
  if response.status != 200 then Except.error ⟨response.status, response.reason⟩
  else Except.ok (parseBody response.body)

/-! ## SQS client (sqs.py) -/

/-- SQS API version constant (sqs.py line 9), merged into every request's params. -/
def SQS_VERSION : String := "2012-11-05"

/-- Python truthiness of an optional integer argument (`if delay_seconds:`):
`None` and `0` are falsy, every other integer is truthy. -/
def pyTruthyInt : Option Int → Bool
  | none => false
  | some d => d != 0

/-- Embedding of the parameter dict built by `SQS.send_message`
(sqs.py lines 63-79), with integer values stringified as `AWS.get` later does. -/
def sendMessageParams (message : String) (delay_seconds : Option Int) :
    List (String × String) :=
  let params := [("Action", "SendMessage"), ("MessageBody", message)]
  let params :=
    if pyTruthyInt delay_seconds then params ++ [("DelaySeconds", toString (delay_seconds.getD 0))]
    else params
  params ++ [("Version", SQS_VERSION)]

/-- One `Attribute` child element of an SQS `Message` element, with the text of
its `Name` and `Value` children. -/
structure AttrElem where
  Name : String
  Value : String
deriving DecidableEq, Repr

/-- One `Message` element of a `ReceiveMessageResult`, with the text of its leaf
children and its list of `Attribute` children. -/
structure MsgElem where
  Body : String
  MD5OfBody : String
  ReceiptHandle : String
  Attribute : List AttrElem
deriving DecidableEq, Repr

/-- Decoded message dict produced by `SQS.__parse_received_message`
(sqs.py lines 47-61). -/
structure ReceivedMessage where
  Body : String
  MD5OfBody : String
  ReceiptHandle : String
  Attributes : List (String × String)
deriving DecidableEq, Repr

/-- Embedding of `SQS.__parse_received_message` (sqs.py lines 47-61): copy the
leaf texts and flatten the attribute list into a name-to-value dict by repeated
dict assignment. -/
def parseReceivedMessage (message : MsgElem) : ReceivedMessage :=
  { Body := message.Body
    MD5OfBody := message.MD5OfBody
    ReceiptHandle := message.ReceiptHandle
    Attributes := message.Attribute.foldl (fun d a => dictInsert d a.Name a.Value) [] }

/-- Objectified access `response.ReceiveMessageResult.Message` (sqs.py line 112):
on an element with no `Message` child, lxml raises `AttributeError`; otherwise it
yields the ordered list of `Message` children. -/
def objectifyMessages (result : List MsgElem) : Except String (List MsgElem) :=
  if result.isEmpty then Except.error "AttributeError" else Except.ok result

/-- Embedding of the response-processing tail of `SQS.receive_messages`
(sqs.py lines 109-113), taking the list of `Message` children of the
`ReceiveMessageResult` element (empty list models `ReceiveMessageResult == ''`). -/
def receiveMessagesOf (result : List MsgElem) : Except String (List ReceivedMessage) :=
  if result = [] then Except.ok []
  else (objectifyMessages result).map (fun messages => messages.map parseReceivedMessage)

/-! ## `SQS.delete_messages` (sqs.py lines 131-172) -/

/-- One `BatchResultErrorEntry` element of a `DeleteMessageBatchResult`, carrying
the text of its `Id`, `Code` and `Message` children as reported by AWS. -/
structure BatchResultErrorEntry where
  Id : String
  Code : String
  Message : String
deriving DecidableEq, Repr

/-- Decimal parse of a numeral, as applied by Python's `int()` to the texts AWS
echoes back (`int(err.Id.text)`, `int(err.Code.text)`).  `int()` raises on
non-numeral text and that failure path is not modelled; AWS echoes back exactly
the decimal `Id` strings this client supplies. -/
def pyIntAux : List Char → Nat → Option Nat
  | [], acc => some acc
  | c :: rest, acc =>
    if 48 ≤ c.toNat ∧ c.toNat ≤ 57 then pyIntAux rest (acc * 10 + (c.toNat - 48)) else none

/-- Decimal parse of a non-negative numeral string (see `pyIntAux`). -/
def pyNat (s : String) : Nat :=
  (pyIntAux s.data 0).getD 0

/-- One slot of the list returned by `SQS.delete_messages`: `None` (success) or
an `AWSException(status, reason)` stored in place. -/
inductive DeleteOutcome where
  | success
  | failure (status : Int) (reason : String)
deriving DecidableEq, Repr

/-- Embedding of the error-merge loop of `SQS.delete_messages` (lines 165-169):
`result[int(err.Id.text)] = AWSException(int(err.Code.text), err.Message.text)`
for each reported error entry. -/
def applyBatchErrors (result : List DeleteOutcome)
    (errors : List BatchResultErrorEntry) : List DeleteOutcome :=
  errors.foldl
    (fun r err => r.set (pyNat err.Id) (DeleteOutcome.failure (Int.ofNat (pyNat err.Code)) err.Message))
    result

/-- Embedding of the `while start < len(receipt_handles)` loop of
`SQS.delete_messages` (lines 141-171): each iteration issues one request and
merges the error entries of its response (given by the oracle `responses`,
indexed by the chunk's starting index) into the result list, then advances by 10. -/
def deleteMessagesLoop (n : Nat) (responses : Nat → List BatchResultErrorEntry)
    (result : List DeleteOutcome) (start : Nat) : List DeleteOutcome :=
  if start < n then
    deleteMessagesLoop n responses (applyBatchErrors result (responses start)) (start + 10)
  else result
termination_by n - start
decreasing_by omega

/-- Embedding of `SQS.delete_messages` (lines 131-172): the result list starts
as all-success (`[None for h in receipt_handles]`) and is updated chunk by
chunk from the per-chunk responses. -/
def deleteMessagesResult (receipt_handles : List String)
    (responses : Nat → List BatchResultErrorEntry) : List DeleteOutcome :=
  deleteMessagesLoop receipt_handles.length responses
    (receipt_handles.map (fun _ => DeleteOutcome.success)) 0

/-- Chunk starting indices visited by the `while` loop of `SQS.delete_messages`
when the input has `n` receipt handles, beginning at `start`. -/
def chunkStartsFrom (n start : Nat) : List Nat :=
  if start < n then start :: chunkStartsFrom n (start + 10) else []
termination_by n - start
decreasing_by omega

/-- Chunk starting indices for an input of `n` receipt handles. -/
def chunkStarts (n : Nat) : List Nat :=
  chunkStartsFrom n 0

/-- Embedding of `receipt_handles[start:end]` with `end = min(start+10, len)`
(sqs.py lines 143-146): the chunk of handles sent in one request. -/
def sliceAt (receipt_handles : List String) (start : Nat) : List String :=
  (receipt_handles.drop start).take (min (start + 10) receipt_handles.length - start)

/-- Embedding of the request-parameter dict built for one chunk of
`SQS.delete_messages` (sqs.py lines 148-157): `Action`, `Version`, then for each
chunk-local index `i` the pair of entries
`DeleteMessageBatchRequestEntry.<i+1>.Id = str(start + i)` and
`DeleteMessageBatchRequestEntry.<i+1>.ReceiptHandle = receipt_handles[start+i]`
(integer values shown stringified, as `AWS.get` serializes them). -/
def deleteChunkParams (receipt_handles : List String) (start : Nat) :
    List (String × String) :=
  let e := min (start + 10) receipt_handles.length
  let delete_handles := sliceAt receipt_handles start
  [("Action", "DeleteMessageBatch"), ("Version", SQS_VERSION)] ++
    (List.range (e - start)).flatMap
      (fun i =>
        [("DeleteMessageBatchRequestEntry." ++ toString (i + 1) ++ ".Id", toString (start + i)),
         ("DeleteMessageBatchRequestEntry." ++ toString (i + 1) ++ ".ReceiptHandle",
          delete_handles.getD i "")])

/-! ## SNS client (sns.py) -/

/-- SNS API version constant (sns.py line 11). -/
def SNS_VERSION : String := "2010-03-31"

/-- Python value as it sits in the `params` dict of `SNS.publish`: either a
string or a dict (the structured-message mapping). -/
inductive PyVal where
  | str (s : String)
  | obj (entries : List (String × String))
deriving DecidableEq, Repr

/-- Lowercase hexadecimal digit for a value below 16. -/
def hexLowerDigit (n : Nat) : Char :=
  if n < 10 then Char.ofNat (48 + n) else Char.ofNat (87 + n)

/-- Four lowercase hex digits, as in Python's `\u` escapes. -/
def hex4 (n : Nat) : String :=
  String.mk [hexLowerDigit (n / 4096 % 16), hexLowerDigit (n / 256 % 16),
             hexLowerDigit (n / 16 % 16), hexLowerDigit (n % 16)]

/-- Escape of one character inside a JSON string literal, per `json.dumps`
defaults (`ensure_ascii=True`): printable ASCII other than quote and backslash
passes through, everything else is escaped. -/
def jsonEscapeChar (c : Char) : String :=
  if c = Char.ofNat 34 then String.mk [Char.ofNat 92, Char.ofNat 34]
  else if c = Char.ofNat 92 then String.mk [Char.ofNat 92, Char.ofNat 92]
  else if c = Char.ofNat 10 then String.mk [Char.ofNat 92, 'n']
  else if c = Char.ofNat 13 then String.mk [Char.ofNat 92, 'r']
  else if c = Char.ofNat 9 then String.mk [Char.ofNat 92, 't']
  else if c = Char.ofNat 8 then String.mk [Char.ofNat 92, 'b']
  else if c = Char.ofNat 12 then String.mk [Char.ofNat 92, 'f']
  else if c.toNat < 32 then String.mk [Char.ofNat 92, 'u'] ++ hex4 c.toNat
  else if c.toNat < 127 then String.singleton c
  else if c.toNat < 65536 then String.mk [Char.ofNat 92, 'u'] ++ hex4 c.toNat
  else
    String.mk [Char.ofNat 92, 'u'] ++ hex4 (55296 + (c.toNat - 65536) / 1024) ++
      String.mk [Char.ofNat 92, 'u'] ++ hex4 (56320 + (c.toNat - 65536) % 1024)

/-- JSON string literal for a Python string, per `json.dumps` defaults. -/
def jsonString (s : String) : String :=
  String.singleton (Char.ofNat 34) ++ String.join (s.data.map jsonEscapeChar) ++
    String.singleton (Char.ofNat 34)

/-- Model of `json.dumps` with default arguments on the values `SNS.publish`
passes it: a string, or a string-to-string dict rendered with the default
`', '` and `': '` separators in insertion order. -/
def jsonDumps : PyVal → String
  | PyVal.str s => jsonString s
  | PyVal.obj entries =>
    "\x7b" ++
      String.intercalate ", "
        (entries.map (fun kv => jsonString kv.1 ++ ": " ++ jsonString kv.2)) ++
      "\x7d"

/-- Python truthiness of an optional string argument (`if subject:` etc.):
`None` and the empty string are falsy. -/
def pyTruthyStr : Option String → Bool
  | none => false
  | some s => s != ""

/-- Embedding of `SNS.publish` up to the request parameters it would send
(sns.py lines 107-123, with the default `attributes={}` contributing no
parameters): `assert message_structure in (None, 'json')` raises
`AssertionError` before any request is issued; with `'json'` the message is
replaced by `json.dumps(message)`; then the params dict is assembled. -/
def publishParams (topic_arn : Option String) (message : PyVal)
    (subject target_arn message_structure : Option String) :
    Except String (List (String × PyVal)) :=
  if ¬(message_structure = none ∨ message_structure = some "json") then
    Except.error "AssertionError"
  else
    let message := if message_structure = some "json" then PyVal.str (jsonDumps message)
                   else message
    let params := [("Action", PyVal.str "Publish"), ("Message", message)]
    let params := if pyTruthyStr subject then params ++ [("Subject", PyVal.str (subject.getD ""))]
                  else params
    let params :=
      if pyTruthyStr message_structure then
        params ++ [("MessageStructure", PyVal.str (message_structure.getD ""))]
      else params
    let params := if pyTruthyStr topic_arn then params ++ [("TopicArn", PyVal.str (topic_arn.getD ""))]
                  else params
    let params := if pyTruthyStr target_arn then params ++ [("TargetArn", PyVal.str (target_arn.getD ""))]
                  else params
    Except.ok (params ++ [("Version", PyVal.str SNS_VERSION)])

/-! ## Helper lemmas -/

/-- Every SHA-256 digest has exactly 32 bytes. -/
theorem sha256_length (msg : List Nat) : (sha256 msg).length = 32 := by
  simp [sha256, be32]

/-- Every HMAC-SHA256 digest has exactly 32 bytes. -/
theorem hmacSha256_length (key msg : List Nat) : (hmacSha256 key msg).length = 32 := by
  unfold hmacSha256
  exact sha256_length _

/-! ## Claim C2 -/

/-- Claim C2, counterexample: `~` (byte 126) is outside `A-Za-z0-9`, yet
`url_encode` leaves it unchanged rather than escaping it as `%7E`; the output is
not a percent sequence at all. -/
theorem url_encode_tilde_counterexample :
    isAsciiAlnumByte 126 = false ∧ url_encode "~" = "~" ∧
      percentDecode3 (url_encode "~") = none := by
  refine ⟨by decide, by decide, by decide⟩

/-- Claim C2 (amended): the canonical-query percent-encoder escapes every byte
outside the RFC 3986 unreserved set `A-Za-z0-9-._~` as a percent sequence
(three characters `%XY` decoding back to the byte), while unreserved bytes
(in particular all of `A-Za-z0-9`) pass through unchanged; a space is encoded
as `%20` (never `+`) and a slash as `%2F`. -/
theorem url_encode_strict :
    (∀ b, b < 256 → isUnreservedByte b = false → percentDecode3 (quoteByte b) = some b) ∧
    (∀ b, b < 256 → isUnreservedByte b = true → quoteByte b = String.singleton (Char.ofNat b)) ∧
    url_encode " " = "%20" ∧ url_encode "/" = "%2F" ∧ url_encode "AZaz09" = "AZaz09" := by
  refine ⟨by decide, by decide, by decide, by decide, by decide⟩

/-- Witness for `url_encode_strict` at the concrete bytes 47 (`/`) and 65 (`A`). -/
theorem url_encode_strict_witness :
    percentDecode3 (quoteByte 47) = some 47 ∧
      quoteByte 65 = String.singleton (Char.ofNat 65) :=
  ⟨url_encode_strict.1 47 (by decide) (by decide),
   url_encode_strict.2.1 65 (by decide) (by decide)⟩

/-! ## Claim C3 -/

/-- Claim C3, counterexample: 204 is a 2xx status, yet `AWS.get` raises
`AWSException(204, reason)` instead of returning the parsed document, because
the code tests `status != 200`, not "non-2xx". -/
theorem awsGet_status204_counterexample :
    ((200 : Int) ≤ 204 ∧ (204 : Int) < 300) ∧
    awsGetDispatch (fun s : String => s) ⟨204, "No Content", "doc"⟩ =
      Except.error ⟨204, "No Content"⟩ ∧
    awsGetDispatch (fun s : String => s) ⟨204, "No Content", "doc"⟩ ≠ Except.ok "doc" := by
  refine ⟨by decide, rfl, by simp [awsGetDispatch]⟩

/-- Claim C3 (amended): an invoke call raises `AWSException` exactly when the
transport returns a status other than exactly 200, with status and reason taken
verbatim from the response; on a 200 status the parsed response document is
returned. -/
theorem awsGet_raises_iff_not_200 {α β : Type} (parseBody : α → β)
    (response : HttpResponse α) :
    (response.status ≠ 200 →
      awsGetDispatch parseBody response = Except.error ⟨response.status, response.reason⟩) ∧
    (response.status = 200 →
      awsGetDispatch parseBody response = Except.ok (parseBody response.body)) := by
  constructor
  · intro h
    simp [awsGetDispatch, h]
  · intro h
    simp [awsGetDispatch, h]

/-- Witness for `awsGet_raises_iff_not_200` at a 500 and a 200 response. -/
theorem awsGet_raises_iff_not_200_witness :
    awsGetDispatch (fun s : String => s) ⟨500, "Internal Server Error", "doc"⟩ =
      Except.error ⟨500, "Internal Server Error"⟩ ∧
    awsGetDispatch (fun s : String => s) ⟨200, "OK", "doc"⟩ = Except.ok "doc" :=
  ⟨(awsGet_raises_iff_not_200 _ _).1 (by decide), (awsGet_raises_iff_not_200 _ _).2 rfl⟩

/-! ## Claim C4 -/

/-- Claim C4: the derived signing key equals the four-stage HMAC-SHA256 chain
`HMAC(HMAC(HMAC(HMAC("AWS4"+secretKey, date), region), service), "aws4_request")`
of the spec, each stage keyed by the previous stage's output, and is always a
32-byte key.  Determinism is immediate: the embedding is a pure function of its
four string arguments. -/
theorem getSignatureKey_chain (region service secretKey date : String) :
    getSignatureKey region service secretKey date =
      deriveSigningKeySpec secretKey date region service ∧
    (getSignatureKey region service secretKey date).length = 32 :=
  ⟨rfl, hmacSha256_length _ _⟩

/-! ## Claim C6 -/

/-- Key order of the sort performed on aws.py line 112. -/
theorem sortParams_sorted (l : List (String × String)) :
    (sortParams l).Pairwise (fun p q => p.1 ≤ q.1) := by
  have h := @List.sorted_mergeSort (String × String)
    (fun p q : String × String => decide (p.1 ≤ q.1))
    (fun a b c h1 h2 => by
      simp only [decide_eq_true_eq] at *
      exact le_trans h1 h2)
    (fun a b => by
      simp only [Bool.or_eq_true, decide_eq_true_eq]
      exact le_total a.1 b.1) l
  exact h.imp (fun hpq => by simpa using hpq)

/-- The sort of aws.py line 112 permutes its input. -/
theorem sortParams_perm (l : List (String × String)) : (sortParams l).Perm l :=
  List.mergeSort_perm l _

/-- With pairwise-distinct keys, any two permutations of a parameter list sort
to the same list. -/
theorem sortParams_eq_of_perm (l1 l2 : List (String × String)) (hperm : l1.Perm l2)
    (hnd : (l1.map Prod.fst).Nodup) : sortParams l1 = sortParams l2 := by
  have hp : (sortParams l1).Perm (sortParams l2) :=
    (sortParams_perm l1).trans (hperm.trans (sortParams_perm l2).symm)
  have hnd1 : ((sortParams l1).map Prod.fst).Nodup :=
    (((sortParams_perm l1).map Prod.fst).symm).nodup hnd
  have hnd2 : ((sortParams l2).map Prod.fst).Nodup :=
    ((hp.map Prod.fst)).nodup hnd1
  have hstrict : ∀ (l : List (String × String)), ((l.map Prod.fst).Nodup) →
      l.Pairwise (fun p q => p.1 ≤ q.1) →
      l.Pairwise (fun p q : String × String => p.1 < q.1) := by
    intro l hn hle
    rw [List.Nodup, List.pairwise_map] at hn
    exact (hle.and hn).imp (fun h => lt_of_le_of_ne h.1 h.2)
  have hs1 := hstrict _ hnd1 (sortParams_sorted l1)
  have hs2 := hstrict _ hnd2 (sortParams_sorted l2)
  haveI : IsAntisymm (String × String) (fun p q => p.1 < q.1) :=
    ⟨fun a b h1 h2 => absurd h2 (not_lt.mpr (le_of_lt h1))⟩
  exact List.eq_of_perm_of_sorted hp hs1 hs2

/-- Claim C6: the canonical query string emits its `key=value` pairs in
lexicographic key order regardless of the order in which the parameters were
supplied: two input mappings that are permutations of each other (with the
distinct keys a mapping guarantees) produce the same canonical query string,
and the emitted key sequence is sorted. -/
theorem canonicalQuery_key_order (ps qs : List (String × String))
    (hperm : ps.Perm qs) (hnd : (ps.map Prod.fst).Nodup) :
    canonicalQueryOf ps = canonicalQueryOf qs ∧
    List.Sorted (fun a b => a ≤ b) ((sortParams (encodeParams ps)).map Prod.fst) := by
  constructor
  · have hkeys : ∀ l : List (String × String),
        (encodeParams l).map Prod.fst = l.map Prod.fst := by
      intro l
      simp [encodeParams, List.map_map]
    have h := sortParams_eq_of_perm (encodeParams ps) (encodeParams qs)
      (hperm.map _) (by rw [hkeys]; exact hnd)
    simp [canonicalQueryOf, h]
  · have h := sortParams_sorted (encodeParams ps)
    rw [List.Sorted, List.pairwise_map]
    exact h

/-- Witness for `canonicalQuery_key_order` on a concrete two-key mapping
supplied in two different orders. -/
theorem canonicalQuery_key_order_witness :
    canonicalQueryOf [("b", "2"), ("a", "1 x")] =
      canonicalQueryOf [("a", "1 x"), ("b", "2")] ∧
    List.Sorted (fun a b => a ≤ b)
      ((sortParams (encodeParams [("b", "2"), ("a", "1 x")])).map Prod.fst) :=
  canonicalQuery_key_order _ _ (by decide) (by decide)

/-! ## Claim C7 -/

/-- Claim C7, counterexample: with `delay_seconds` provided as `0`, the
`DelaySeconds` parameter is omitted from the request, because the code guards it
with Python truthiness (`if delay_seconds:`) under which `0` counts as absent. -/
theorem sendMessage_delay_zero_counterexample :
    (sendMessageParams "m" (some 0)).lookup "DelaySeconds" = none := by decide

/-- Claim C7 (amended): the `DelaySeconds` parameter is included in the request
exactly when the `delay_seconds` argument is provided with a truthy (nonzero)
value; providing `0` behaves like not providing it at all. -/
theorem sendMessage_delay_truthy (message : String) (delay_seconds : Option Int) :
    (∃ v, ("DelaySeconds", v) ∈ sendMessageParams message delay_seconds) ↔
      delay_seconds ≠ none ∧ delay_seconds ≠ some 0 := by
  match delay_seconds with
  | none =>
    simp [sendMessageParams, pyTruthyInt, SQS_VERSION]
  | some d =>
    by_cases hd : d = 0
    · subst hd
      simp [sendMessageParams, pyTruthyInt, SQS_VERSION]
    · simp [sendMessageParams, pyTruthyInt, hd, SQS_VERSION]

/-- Witness for `sendMessage_delay_truthy` at delays `5` (included) and `0` (omitted). -/
theorem sendMessage_delay_truthy_witness :
    (∃ v, ("DelaySeconds", v) ∈ sendMessageParams "m" (some 5)) ∧
    ¬(∃ v, ("DelaySeconds", v) ∈ sendMessageParams "m" (some 0)) :=
  ⟨(sendMessage_delay_truthy "m" (some 5)).mpr (by simp),
   fun h => (((sendMessage_delay_truthy "m" (some 0)).mp h).2 rfl)⟩

/-! ## Claim C8 -/

/-- Dict assignment with a fresh key appends the pair. -/
theorem dictInsert_of_not_mem (d : List (String × String)) (k v : String)
    (h : d.any (fun p => p.1 == k) = false) : dictInsert d k v = d ++ [(k, v)] := by
  simp [dictInsert, h]

/-- Folding dict assignments of attributes with pairwise-distinct names over a
dict none of them occurs in appends their pairs in order. -/
theorem foldl_dictInsert_eq_append (attrs : List AttrElem) :
    ∀ d : List (String × String),
      (∀ a ∈ attrs, d.any (fun p => p.1 == a.Name) = false) →
      (attrs.map AttrElem.Name).Nodup →
      attrs.foldl (fun d a => dictInsert d a.Name a.Value) d =
        d ++ attrs.map (fun a => (a.Name, a.Value)) := by
  induction attrs with
  | nil =>
    intro d _ _
    simp
  | cons a rest ih =>
    intro d hd hnd
    rw [List.map_cons, List.nodup_cons] at hnd
    have hfresh : ∀ b ∈ rest, (d ++ [(a.Name, a.Value)]).any (fun p => p.1 == b.Name) = false := by
      intro b hb
      have h1 : d.any (fun p => p.1 == b.Name) = false := hd b (by simp [hb])
      have h2 : a.Name ≠ b.Name := by
        have hmem : b.Name ∈ rest.map AttrElem.Name := List.mem_map_of_mem _ hb
        intro he
        exact hnd.1 (he ▸ hmem)
      simp [List.any_append, h1, h2]
    simp only [List.foldl_cons]
    rw [dictInsert_of_not_mem d a.Name a.Value (hd a (by simp))]
    rw [ih (d ++ [(a.Name, a.Value)]) hfresh hnd.2]
    simp

/-- Lookup in the flattened attribute dict returns each attribute's value when
names are pairwise distinct. -/
theorem lookup_map_attr_pairs (attrs : List AttrElem) :
    (attrs.map AttrElem.Name).Nodup →
    ∀ a ∈ attrs, (attrs.map (fun a => (a.Name, a.Value))).lookup a.Name = some a.Value := by
  induction attrs with
  | nil =>
    intro _ a ha
    cases ha
  | cons b rest ih =>
    intro hnd a ha
    rw [List.map_cons, List.nodup_cons] at hnd
    rcases List.mem_cons.mp ha with he | hrest
    · subst he
      simp [List.lookup]
    · have hne : a.Name ≠ b.Name := by
        have hmem : a.Name ∈ rest.map AttrElem.Name := List.mem_map_of_mem _ hrest
        intro he
        exact hnd.1 (he ▸ hmem)
      have hbeq : (a.Name == b.Name) = false := beq_eq_false_iff_ne.mpr hne
      simp [List.lookup, hbeq]
      exact ih hnd.2 a hrest

/-- Claim C8: on a response whose result element is empty, `receive_messages`
returns an empty sequence (an `ok` value, never an error); otherwise it maps
each message element to a `ReceivedMessage` carrying the body, body MD5 and
receipt handle, with the attribute list flattened into a name-to-value mapping. -/
theorem receiveMessages_spec (result : List MsgElem) :
    receiveMessagesOf [] = Except.ok [] ∧
    (∃ msgs, receiveMessagesOf result = Except.ok msgs ∧
      msgs = result.map parseReceivedMessage) ∧
    (∀ message : MsgElem, (message.Attribute.map AttrElem.Name).Nodup →
      (parseReceivedMessage message).Body = message.Body ∧
      (parseReceivedMessage message).MD5OfBody = message.MD5OfBody ∧
      (parseReceivedMessage message).ReceiptHandle = message.ReceiptHandle ∧
      ∀ a ∈ message.Attribute,
        (parseReceivedMessage message).Attributes.lookup a.Name = some a.Value) := by
  refine ⟨by simp [receiveMessagesOf], ?_, ?_⟩
  · by_cases hr : result = []
    · subst hr
      exact ⟨[], by simp [receiveMessagesOf], by simp⟩
    · refine ⟨result.map parseReceivedMessage, ?_, rfl⟩
      have hne : result.isEmpty = false := by
        simpa [List.isEmpty_iff] using hr
      simp [receiveMessagesOf, objectifyMessages, hr, hne, Except.map]
  · intro message hnd
    refine ⟨rfl, rfl, rfl, ?_⟩
    intro a ha
    have hfold := foldl_dictInsert_eq_append message.Attribute []
      (fun b _ => by simp) hnd
    simp only [parseReceivedMessage, hfold, List.nil_append]
    exact lookup_map_attr_pairs message.Attribute hnd a ha

/-- Witness for `receiveMessages_spec` on a concrete two-attribute message. -/
theorem receiveMessages_spec_witness :
    receiveMessagesOf [] = Except.ok [] ∧
    (parseReceivedMessage ⟨"b", "m", "r", [⟨"SenderId", "42"⟩, ⟨"Foo", "1"⟩]⟩).Attributes.lookup
      "SenderId" = some "42" :=
  ⟨(receiveMessages_spec []).1,
   ((receiveMessages_spec []).2.2 ⟨"b", "m", "r", [⟨"SenderId", "42"⟩, ⟨"Foo", "1"⟩]⟩
     (by decide)).2.2.2 ⟨"SenderId", "42"⟩ (by decide)⟩

/-! ## Claim C9 -/

/-- Claim C9: `publish` with a `message_structure` other than absent or
`"json"` fails the assertion on sns.py line 107 and returns before any request
parameters are even assembled (no network call); with `message_structure="json"`
and the mapping `default -> hi`, the request's `Message` parameter is the JSON
text rendering of that mapping. -/
theorem publish_message_structure (topic subject target : Option String) (message : PyVal)
    (ms : String) (hms : ms ≠ "json") :
    publishParams topic message subject target (some ms) = Except.error "AssertionError" ∧
    (∃ params,
      publishParams (some "arn:topic") (PyVal.obj [("default", "hi")]) none none (some "json") =
        Except.ok params ∧
      ("Message", PyVal.str "\x7b\"default\": \"hi\"\x7d") ∈ params ∧
      jsonDumps (PyVal.obj [("default", "hi")]) = "\x7b\"default\": \"hi\"\x7d") := by
  constructor
  · simp [publishParams, hms]
  · exact ⟨_, rfl, by decide, by decide⟩

/-- Witness for `publish_message_structure` at the invalid structure `"xml"`. -/
theorem publish_message_structure_witness :
    publishParams none (PyVal.str "x") none none (some "xml") = Except.error "AssertionError" :=
  (publish_message_structure none none none (PyVal.str "x") "xml" (by decide)).1

/-! ## Claim C10 -/

/-- Lookup of the assigned key after an in-place replacing dict assignment. -/
theorem lookup_replace_self (d : List (String × String)) (k v : String)
    (h : d.any (fun p => p.1 == k) = true) :
    (d.map (fun p => if p.1 == k then (k, v) else p)).lookup k = some v := by
  induction d with
  | nil => simp at h
  | cons p rest ih =>
    obtain ⟨pk, pv⟩ := p
    by_cases hp : (pk == k) = true
    · rw [List.map_cons]
      rw [if_pos hp]
      simp [List.lookup]
    · have hp2 : (pk == k) = false := by simpa using hp
      have h2 : rest.any (fun p => p.1 == k) = true := by
        simpa [List.any_cons, hp2] using h
      have hkp : (k == pk) = false :=
        beq_eq_false_iff_ne.mpr (fun he => by simp [he] at hp2)
      rw [List.map_cons]
      rw [if_neg hp]
      simp only [List.lookup, hkp]
      exact ih h2

/-- Lookup of the assigned key after an appending dict assignment. -/
theorem lookup_append_single_self (d : List (String × String)) (k v : String)
    (h : d.any (fun p => p.1 == k) = false) :
    (d ++ [(k, v)]).lookup k = some v := by
  induction d with
  | nil => simp [List.lookup]
  | cons p rest ih =>
    obtain ⟨pk, pv⟩ := p
    rw [List.any_cons, Bool.or_eq_false_iff] at h
    have hkp : (k == pk) = false :=
      beq_eq_false_iff_ne.mpr (fun he => by simp [he] at h)
    rw [List.cons_append]
    simp only [List.lookup, hkp]
    exact ih h.2

/-- Dict assignment `d[k] = v` makes `d[k]` read back `v`, overwriting any
previous value under `k`. -/
theorem lookup_dictInsert_self (d : List (String × String)) (k v : String) :
    (dictInsert d k v).lookup k = some v := by
  unfold dictInsert
  split
  · rename_i hcond
    exact lookup_replace_self d k v hcond
  · rename_i hcond
    exact lookup_append_single_self d k v (by rwa [Bool.not_eq_true] at hcond)

/-- An in-place replacing dict assignment leaves other keys unchanged. -/
theorem lookup_replace_ne (d : List (String × String)) (k v k2 : String) (hne : k2 ≠ k) :
    (d.map (fun p => if p.1 == k then (k, v) else p)).lookup k2 = d.lookup k2 := by
  induction d with
  | nil => simp
  | cons p rest ih =>
    obtain ⟨pk, pv⟩ := p
    by_cases hp : (pk == k) = true
    · have hpk : pk = k := eq_of_beq hp
      have h1 : (k2 == k) = false := beq_eq_false_iff_ne.mpr hne
      have h2 : (k2 == pk) = false := by rw [hpk]; exact h1
      rw [List.map_cons]
      rw [if_pos hp]
      simp only [List.lookup, h1, h2]
      exact ih
    · rw [List.map_cons]
      rw [if_neg hp]
      by_cases hk2p : (k2 == pk) = true
      · simp only [List.lookup, hk2p]
      · have hk2p2 : (k2 == pk) = false := by simpa using hk2p
        simp only [List.lookup, hk2p2]
        exact ih

/-- An appending dict assignment leaves other keys unchanged. -/
theorem lookup_append_ne (d : List (String × String)) (k v k2 : String) (hne : k2 ≠ k) :
    (d ++ [(k, v)]).lookup k2 = d.lookup k2 := by
  induction d with
  | nil => simp [List.lookup, beq_eq_false_iff_ne.mpr hne]
  | cons p rest ih =>
    obtain ⟨pk, pv⟩ := p
    rw [List.cons_append]
    by_cases hk2p : (k2 == pk) = true
    · simp only [List.lookup, hk2p]
    · have hk2p2 : (k2 == pk) = false := by simpa using hk2p
      simp only [List.lookup, hk2p2]
      exact ih

/-- Dict assignment `d[k] = v` leaves every other key's value unchanged. -/
theorem lookup_dictInsert_ne (d : List (String × String)) (k v k2 : String) (hne : k2 ≠ k) :
    (dictInsert d k v).lookup k2 = d.lookup k2 := by
  unfold dictInsert
  split
  · exact lookup_replace_ne d k v k2 hne
  · exact lookup_append_ne d k v k2 hne

/-- Claim C10: `AWS.get` mutates the caller-supplied `params` dict in place:
after the call the four reserved keys `X-Amz-Algorithm`, `X-Amz-Credential`,
`X-Amz-Date` and `X-Amz-SignedHeaders` read back the values the client wrote
(overwriting any caller-supplied values under those names), every other key is
untouched, and the canonical query string is built from that mutated dict.
The mutation is visible to the caller because the dict object is updated by
lines 106-109 before the local name is rebound on line 111. -/
theorem awsGet_mutates_caller_params (params : List (String × String))
    (credential amz_date : String) :
    ((awsGetParamsPhase params credential amz_date).callerParams.lookup "X-Amz-Algorithm" =
        some AWS_ALGORITHM ∧
      (awsGetParamsPhase params credential amz_date).callerParams.lookup "X-Amz-Credential" =
        some credential ∧
      (awsGetParamsPhase params credential amz_date).callerParams.lookup "X-Amz-Date" =
        some amz_date ∧
      (awsGetParamsPhase params credential amz_date).callerParams.lookup "X-Amz-SignedHeaders" =
        some "host") ∧
    (∀ k, k ≠ "X-Amz-Algorithm" → k ≠ "X-Amz-Credential" → k ≠ "X-Amz-Date" →
      k ≠ "X-Amz-SignedHeaders" →
      (awsGetParamsPhase params credential amz_date).callerParams.lookup k = params.lookup k) ∧
    (awsGetParamsPhase params credential amz_date).canonicalQuery =
      canonicalQueryOf ((awsGetParamsPhase params credential amz_date).callerParams) := by
  refine ⟨⟨?_, ?_, ?_, ?_⟩, ?_, rfl⟩
  · show (amzParamsUpdate params credential amz_date).lookup "X-Amz-Algorithm" = some AWS_ALGORITHM
    unfold amzParamsUpdate
    rw [lookup_dictInsert_ne _ _ _ _ (by decide), lookup_dictInsert_ne _ _ _ _ (by decide),
        lookup_dictInsert_ne _ _ _ _ (by decide), lookup_dictInsert_self]
  · show (amzParamsUpdate params credential amz_date).lookup "X-Amz-Credential" = some credential
    unfold amzParamsUpdate
    rw [lookup_dictInsert_ne _ _ _ _ (by decide), lookup_dictInsert_ne _ _ _ _ (by decide),
        lookup_dictInsert_self]
  · show (amzParamsUpdate params credential amz_date).lookup "X-Amz-Date" = some amz_date
    unfold amzParamsUpdate
    rw [lookup_dictInsert_ne _ _ _ _ (by decide), lookup_dictInsert_self]
  · show (amzParamsUpdate params credential amz_date).lookup "X-Amz-SignedHeaders" = some "host"
    unfold amzParamsUpdate
    rw [lookup_dictInsert_self]
  · intro k h1 h2 h3 h4
    show (amzParamsUpdate params credential amz_date).lookup k = params.lookup k
    unfold amzParamsUpdate
    rw [lookup_dictInsert_ne _ _ _ _ h4, lookup_dictInsert_ne _ _ _ _ h3,
        lookup_dictInsert_ne _ _ _ _ h2, lookup_dictInsert_ne _ _ _ _ h1]

/-- Witness for `awsGet_mutates_caller_params`: a caller-supplied `X-Amz-Date`
is overwritten while `Action` survives. -/
theorem awsGet_mutates_caller_params_witness :
    (awsGetParamsPhase [("X-Amz-Date", "EVIL"), ("Action", "Send")] "cred"
      "20260101T000000Z").callerParams.lookup "X-Amz-Date" = some "20260101T000000Z" ∧
    (awsGetParamsPhase [("X-Amz-Date", "EVIL"), ("Action", "Send")] "cred"
      "20260101T000000Z").callerParams.lookup "Action" = some "Send" :=
  ⟨(awsGet_mutates_caller_params _ _ _).1.2.2.1,
   by
    have h := (awsGet_mutates_caller_params [("X-Amz-Date", "EVIL"), ("Action", "Send")] "cred"
      "20260101T000000Z").2.1 "Action" (by decide) (by decide) (by decide) (by decide)
    rw [h]
    decide⟩

/-! ## Claims C5 and C1 -/

/-- The `while` loop of `delete_messages` visits `ceil((n - start)/10)` chunk starts. -/
theorem chunkStartsFrom_length (n start : Nat) :
    (chunkStartsFrom n start).length = (n - start + 9) / 10 := by
  have key : ∀ fuel s, n - s ≤ fuel →
      (chunkStartsFrom n s).length = (n - s + 9) / 10 := by
    intro fuel
    induction fuel with
    | zero =>
      intro s hs
      have h1 : ¬ s < n := by omega
      rw [chunkStartsFrom]
      simp only [h1, if_false]
      simp
      omega
    | succ fuel ih =>
      intro s hs
      rw [chunkStartsFrom]
      by_cases h1 : s < n
      · simp only [h1, if_true, List.length_cons]
        rw [ih (s + 10) (by omega)]
        omega
      · simp only [h1, if_false]
        simp
        omega
  exact key (n - start) start le_rfl

/-- The chunk slices taken by the loop, concatenated in order, give back the
remaining input. -/
theorem chunkStartsFrom_flatMap_slice (handles : List String) :
    ∀ fuel start, handles.length - start ≤ fuel →
      (chunkStartsFrom handles.length start).flatMap (sliceAt handles) =
        handles.drop start := by
  intro fuel
  induction fuel with
  | zero =>
    intro s hs
    have h1 : ¬ s < handles.length := by omega
    rw [chunkStartsFrom]
    simp only [h1, if_false, List.flatMap_nil]
    exact (List.drop_eq_nil_of_le (by omega)).symm
  | succ fuel ih =>
    intro s hs
    rw [chunkStartsFrom]
    by_cases h1 : s < handles.length
    · simp only [h1, if_true, List.flatMap_cons]
      rw [ih (s + 10) (by omega)]
      by_cases h2 : handles.length - s ≤ 10
      · have hmin : min (s + 10) handles.length - s = handles.length - s := by omega
        have hdrop : handles.drop (s + 10) = [] := List.drop_eq_nil_of_le (by omega)
        have hlen : (handles.drop s).length = handles.length - s := List.length_drop s handles
        rw [sliceAt, hmin, hdrop, ← hlen, List.take_length, List.append_nil]
      · have hmin : min (s + 10) handles.length - s = 10 := by omega
        rw [sliceAt, hmin]
        have := List.take_append_drop 10 (handles.drop s)
        rw [List.drop_drop] at this
        exact this
    · simp only [h1, if_false, List.flatMap_nil]
      exact (List.drop_eq_nil_of_le (by omega)).symm

/-- Every chunk carries at most 10 receipt handles. -/
theorem sliceAt_length_le (handles : List String) (s : Nat) :
    (sliceAt handles s).length ≤ 10 := by
  simp [sliceAt, List.length_take, List.length_drop]
  omega

/-- Merging error entries never changes the length of the result list. -/
theorem applyBatchErrors_length (errors : List BatchResultErrorEntry) :
    ∀ result : List DeleteOutcome, (applyBatchErrors result errors).length = result.length := by
  induction errors with
  | nil =>
    intro r
    rfl
  | cons e rest ih =>
    intro r
    have hstep : applyBatchErrors r (e :: rest) =
        applyBatchErrors
          (r.set (pyNat e.Id) (DeleteOutcome.failure (Int.ofNat (pyNat e.Code)) e.Message)) rest :=
      rfl
    rw [hstep, ih, List.length_set]

/-- The delete-messages loop is a fold of per-chunk error merges over the chunk
starts, one request (response consultation) per chunk, in order. -/
theorem deleteMessagesLoop_eq_foldl (n : Nat) (rs : Nat → List BatchResultErrorEntry) :
    ∀ start result, deleteMessagesLoop n rs result start =
      (chunkStartsFrom n start).foldl (fun r s => applyBatchErrors r (rs s)) result := by
  have key : ∀ fuel s r, n - s ≤ fuel →
      deleteMessagesLoop n rs r s =
        (chunkStartsFrom n s).foldl (fun r s => applyBatchErrors r (rs s)) r := by
    intro fuel
    induction fuel with
    | zero =>
      intro s r hs
      have h1 : ¬ s < n := by omega
      rw [deleteMessagesLoop, chunkStartsFrom]
      simp [h1]
    | succ fuel ih =>
      intro s r hs
      rw [deleteMessagesLoop, chunkStartsFrom]
      by_cases h1 : s < n
      · simp only [h1, if_true, List.foldl_cons]
        exact ih (s + 10) _ (by omega)
      · simp [h1]
  intro start result
  exact key (n - start) start result le_rfl

/-- Folding per-chunk merges preserves the result length. -/
theorem foldl_applyBatchErrors_length (rs : Nat → List BatchResultErrorEntry)
    (l : List Nat) :
    ∀ result : List DeleteOutcome,
      (l.foldl (fun r s => applyBatchErrors r (rs s)) result).length = result.length := by
  induction l with
  | nil =>
    intro r
    rfl
  | cons s rest ih =>
    intro r
    rw [List.foldl_cons, ih, applyBatchErrors_length]

/-- Element `i` of the chunk starting at `s` is input element `s + i`. -/
theorem sliceAt_getD (handles : List String) (s i : Nat)
    (hi : i < min (s + 10) handles.length - s) :
    (sliceAt handles s).getD i "" = handles.getD (s + i) "" := by
  rw [List.getD_eq_getElem?_getD, List.getD_eq_getElem?_getD, sliceAt,
      List.getElem?_take_of_lt hi, List.getElem?_drop]

/-- The request for the chunk containing global index `k` carries, at 1-based
entry position `k % 10 + 1`, the entry id `str(k)` (the chunk-local 0-based
position offset by the chunk start, as the code pre-encodes into the request)
and the receipt handle `receipt_handles[k]`. -/
theorem deleteChunkParams_entry (handles : List String) (k : Nat) (hk : k < handles.length) :
    ("DeleteMessageBatchRequestEntry." ++ toString (k % 10 + 1) ++ ".Id", toString k) ∈
      deleteChunkParams handles (10 * (k / 10)) ∧
    ("DeleteMessageBatchRequestEntry." ++ toString (k % 10 + 1) ++ ".ReceiptHandle",
      handles.getD k "") ∈ deleteChunkParams handles (10 * (k / 10)) := by
  have hsi : 10 * (k / 10) + k % 10 = k := by omega
  have hi : k % 10 < min (10 * (k / 10) + 10) handles.length - 10 * (k / 10) := by omega
  have hslice : (sliceAt handles (10 * (k / 10))).getD (k % 10) "" = handles.getD k "" := by
    rw [sliceAt_getD handles _ _ hi, hsi]
  constructor
  · apply List.mem_append_right
    apply List.mem_flatMap.mpr
    refine ⟨k % 10, List.mem_range.mpr hi, ?_⟩
    rw [hsi]
    exact List.mem_cons_self _ _
  · apply List.mem_append_right
    apply List.mem_flatMap.mpr
    refine ⟨k % 10, List.mem_range.mpr hi, ?_⟩
    rw [hslice]
    exact List.mem_cons.mpr (Or.inr (List.mem_cons_self _ _))

/-- Claim C5: `delete_messages` splits its input into `ceil(N/10)` consecutive
chunks of at most 10 handles each, preserving order (their concatenation is the
input), processes them sequentially as a fold issuing one request per chunk,
returns a result whose length always equals `N`, and labels the entry for
`receiptHandles[k]` with id `k` so that slot `k` corresponds to input `k`. -/
theorem deleteMessages_chunking (handles : List String)
    (rs : Nat → List BatchResultErrorEntry) :
    (chunkStarts handles.length).length = (handles.length + 9) / 10 ∧
    (chunkStarts handles.length).flatMap (sliceAt handles) = handles ∧
    (∀ s, (sliceAt handles s).length ≤ 10) ∧
    (deleteMessagesResult handles rs).length = handles.length ∧
    (∀ k, k < handles.length →
      ("DeleteMessageBatchRequestEntry." ++ toString (k % 10 + 1) ++ ".Id", toString k) ∈
        deleteChunkParams handles (10 * (k / 10)) ∧
      ("DeleteMessageBatchRequestEntry." ++ toString (k % 10 + 1) ++ ".ReceiptHandle",
        handles.getD k "") ∈ deleteChunkParams handles (10 * (k / 10))) := by
  refine ⟨?_, ?_, ?_, ?_, ?_⟩
  · rw [chunkStarts, chunkStartsFrom_length]
    omega
  · rw [chunkStarts, chunkStartsFrom_flatMap_slice handles (handles.length) 0 (by omega)]
    exact List.drop_zero handles
  · exact sliceAt_length_le handles
  · rw [deleteMessagesResult, deleteMessagesLoop_eq_foldl, foldl_applyBatchErrors_length,
        List.length_map]
  · exact fun k hk => deleteChunkParams_entry handles k hk

/-- Witness for `deleteMessages_chunking` at a concrete 25-handle input. -/
theorem deleteMessages_chunking_witness :
    (chunkStarts (List.replicate 25 "h").length).length = 3 ∧
    (deleteMessagesResult (List.replicate 25 "h") (fun _ => [])).length = 25 ∧
    ("DeleteMessageBatchRequestEntry.2.Id", "11") ∈
      deleteChunkParams (List.replicate 25 "h") 10 := by
  have h := deleteMessages_chunking (List.replicate 25 "h") (fun _ => [])
  refine ⟨?_, ?_, ?_⟩
  · rw [h.1]
    decide
  · rw [h.2.2.2.1]
    decide
  · have hm := (h.2.2.2.2 11 (by decide)).1
    have he :
        (("DeleteMessageBatchRequestEntry." ++ toString (11 % 10 + 1) ++ ".Id", toString 11) :
          String × String) = ("DeleteMessageBatchRequestEntry.2.Id", "11") := by decide
    have hs : 10 * (11 / 10) = 10 := by decide
    rw [he, hs] at hm
    exact hm

/-- For 25 receipt handles the loop issues exactly three requests, for the
chunks starting at 0, 10 and 20. -/
theorem chunkStarts_25 : chunkStarts 25 = [0, 10, 20] := by
  rw [chunkStarts]
  rw [chunkStartsFrom]
  rw [chunkStartsFrom]
  rw [chunkStartsFrom]
  rw [chunkStartsFrom]
  norm_num

/-- Claim C1: with 25 receipt handles, the second chunk's request labels its
entry at 1-based position 2 (chunk-local 0-based id 1 offset by chunk start 10)
with id `\"11\"`; when AWS reports a batch error echoing that entry id with code
37, the merge writes the `AWSException` into global result slot 11 and every
other of the 25 slots stays success, with no exception raised. -/
theorem deleteMessages_error_slot (handles : List String) (failMsg : String)
    (h : handles.length = 25) :
    ("DeleteMessageBatchRequestEntry.2.Id", "11") ∈ deleteChunkParams handles 10 ∧
    (deleteMessagesResult handles
        (fun s => if s = 10 then [⟨"11", "37", failMsg⟩] else [])).getD 11
        DeleteOutcome.success = DeleteOutcome.failure 37 failMsg ∧
    (∀ k, k < 25 → k ≠ 11 →
      (deleteMessagesResult handles
          (fun s => if s = 10 then [⟨"11", "37", failMsg⟩] else [])).getD k
          DeleteOutcome.success = DeleteOutcome.success) := by
  have hmem : ("DeleteMessageBatchRequestEntry.2.Id", "11") ∈ deleteChunkParams handles 10 := by
    have hm := (deleteChunkParams_entry handles 11 (by omega)).1
    have he :
        (("DeleteMessageBatchRequestEntry." ++ toString (11 % 10 + 1) ++ ".Id", toString 11) :
          String × String) = ("DeleteMessageBatchRequestEntry.2.Id", "11") := by decide
    have hs : 10 * (11 / 10) = 10 := by decide
    rw [he, hs] at hm
    exact hm
  have h11 : pyNat "11" = 11 := by decide
  have h37 : pyNat "37" = 37 := by decide
  have hone : ∀ r : List DeleteOutcome,
      applyBatchErrors r [⟨"11", "37", failMsg⟩] =
        r.set 11 (DeleteOutcome.failure 37 failMsg) := by
    intro r
    show r.set (pyNat "11") (DeleteOutcome.failure (Int.ofNat (pyNat "37")) failMsg) = _
    rw [h11, h37]
    rfl
  have hres : deleteMessagesResult handles
      (fun s => if s = 10 then [⟨"11", "37", failMsg⟩] else []) =
      (List.replicate 25 DeleteOutcome.success).set 11 (DeleteOutcome.failure 37 failMsg) := by
    rw [deleteMessagesResult, List.map_const', h, deleteMessagesLoop_eq_foldl, ← chunkStarts,
        chunkStarts_25]
    simp only [List.foldl_cons, List.foldl_nil]
    norm_num
    rw [show (applyBatchErrors (List.replicate 25 DeleteOutcome.success) [] :
          List DeleteOutcome) = List.replicate 25 DeleteOutcome.success from rfl]
    rw [hone]
    rfl
  refine ⟨hmem, ?_, ?_⟩
  · rw [hres, List.getD_eq_getElem?_getD,
        List.getElem?_set_self (by simp)]
    rfl
  · intro k hk hk11
    rw [hres, List.getD_eq_getElem?_getD,
        List.getElem?_set_ne (fun he => hk11 he.symm),
        List.getElem?_replicate_of_lt hk]
    rfl

/-- Witness for `deleteMessages_error_slot` at a concrete 25-handle input. -/
theorem deleteMessages_error_slot_witness :
    ("DeleteMessageBatchRequestEntry.2.Id", "11") ∈
      deleteChunkParams (List.replicate 25 "h") 10 ∧
    (deleteMessagesResult (List.replicate 25 "h")
        (fun s => if s = 10 then [⟨"11", "37", "boom"⟩] else [])).getD 11
        DeleteOutcome.success = DeleteOutcome.failure 37 "boom" ∧
    (deleteMessagesResult (List.replicate 25 "h")
        (fun s => if s = 10 then [⟨"11", "37", "boom"⟩] else [])).getD 0
        DeleteOutcome.success = DeleteOutcome.success := by
  have h := deleteMessages_error_slot (List.replicate 25 "h") "boom" (by decide)
  exact ⟨h.1, h.2.1, h.2.2 0 (by decide) (by decide)⟩
